import Mathlib

/-!
Shallow embedding of the go-shell process wrapper (package shell):
the error values, the exit-code classifier, the two output sinks
(OutputBuffer, OutputStream), the line-streaming helper CommandWithChan,
and the Cmd lifecycle (Start / run / handleWait / handleTimeout /
finalize / Stop), modelled as pure state-passing functions.
-/

namespace Shell

/-- The error values declared by the package, plus raw OS errors carried
with their message text (Go matches them with strings.Contains). -/
inductive GoError where
  | lineBufferOverflow
  | alreadyFinished
  | notFoundCommand
  | notExecutePermission
  | invalidArgs
  | processTimeout
  | processCancel
  | exitError (msg : List Char)
  | spawnError (msg : List Char)
  deriving DecidableEq, Repr

/-- The message text of an error, as err.Error() would return it. -/
def errMsg : GoError → List Char
  | .lineBufferOverflow => "line buffer overflow".toList
  | .alreadyFinished => "already finished".toList
  | .notFoundCommand => "command not found".toList
  | .notExecutePermission => "not execute permission".toList
  | .invalidArgs => "Invalid argument to exit".toList
  | .processTimeout => "throw process timeout".toList
  | .processCancel => "active cancel process".toList
  | .exitError m => m
  | .spawnError m => m

/-- The message of the exec.ExitError for an exit status n: "exit status n". -/
def exitStatusMsg (n : Nat) : List Char :=
  "exit status ".toList ++ Nat.toDigits 10 n

/-- strings.Contains: pat occurs as a contiguous substring of l. -/
def containsSub (pat : List Char) : List Char → Bool
  | [] => pat.isEmpty
  | c :: rest => pat.isPrefixOf (c :: rest) || containsSub pat rest

/-- formatExitCode: classify an error from cmd.Wait by substring match on
its message (127 / 126 / 128); any other error passes through unchanged. -/
def formatExitCode : Option GoError → Option GoError
  | none => none
  | some e =>
    if containsSub ("exit status 127".toList) (errMsg e) then some .notFoundCommand
    else if containsSub ("exit status 126".toList) (errMsg e) then some .notExecutePermission
    else if containsSub ("exit status 128".toList) (errMsg e) then some .invalidArgs
    else some e

/-- bytes.IndexByte(p, 0x0A): index of the first newline, if any. -/
def indexOfNl : List Char → Option Nat
  | [] => none
  | c :: cs => if c = '\n' then some 0 else (indexOfNl cs).map (· + 1)

/-- The streaming line writer: bufSize is the configured carry-over
capacity (rw.bufSize = len(rw.buf)); carry is the meaningful prefix
rw.buf[0:rw.lastChar] of the carry-over buffer. -/
structure OutputStream where
  bufSize : Nat
  carry : List Char
  deriving DecidableEq, Repr

/-- NewOutputStream: 16384-byte line buffer, empty carry-over. -/
def newOutputStream : OutputStream := ⟨16384, []⟩

/-- The scanning loop of OutputStream.Write, fuel-indexed for structural
recursion (fuel ≥ remaining length suffices).  Faithful to the source,
including the carriage-return check reading p[newlineOffset-1] — an index
relative to the start of p, not to the current segment.  Returns the
emitted lines, the final firstChar, and the final carry-over. -/
def writeLoopF : Nat → List Char → Nat → List Char → List (List Char) × Nat × List Char
  | 0, _, firstChar, carry => ([], firstChar, carry)
  | fuel + 1, p, firstChar, carry =>
    match indexOfNl (p.drop firstChar) with
    | none => ([], firstChar, carry)
    | some i =>
      let lastChar := if 0 < i ∧ p.getD (i - 1) ' ' = '\r'
        then firstChar + i - 1 else firstChar + i
      let line := carry ++ (p.drop firstChar).take (lastChar - firstChar)
      let r := writeLoopF fuel p (firstChar + i + 1) []
      (line :: r.1, r.2.1, r.2.2)

/-- The scanning loop started at offset 0 with enough fuel. -/
def writeLoop (p carry : List Char) : List (List Char) × Nat × List Char :=
  writeLoopF (p.length + 1) p 0 carry

/-- Result of OutputStream.Write: emitted lines (sent to streamChan in
order), returned byte count n, returned error, and the updated stream. -/
structure WriteResult where
  lines : List (List Char)
  n : Nat
  err : Option GoError
  stream : OutputStream
  deriving DecidableEq, Repr

/-- OutputStream.Write: scan for newlines, emit each completed line with
the carried-over prefix prepended; buffer any trailing partial line, or
fail with ErrLineBufferOverflow (n = firstChar) when it does not fit. -/
def OutputStream.write (rw : OutputStream) (p : List Char) : WriteResult :=
  let r := writeLoop p rw.carry
  let fc := r.2.1
  let carry := r.2.2
  if fc < p.length then
    let remain := p.length - fc
    let bufFree := rw.bufSize - carry.length
    if bufFree < remain then
      ⟨r.1, fc, some .lineBufferOverflow, ⟨rw.bufSize, carry⟩⟩
    else
      ⟨r.1, p.length, none, ⟨rw.bufSize, carry ++ p.drop fc⟩⟩
  else
    ⟨r.1, p.length, none, ⟨rw.bufSize, carry⟩⟩

/-- bufio dropCR: remove one trailing carriage return. -/
def dropCR (l : List Char) : List Char :=
  if l.getLast? = some '\r' then l.dropLast else l

/-- bufio.ScanLines over fully available data: split at each newline,
dropping a final carriage return of every token; a trailing non-terminated
token is also returned (the scanner reads the buffer to EOF).  acc is the
current partial token. -/
def scanLinesAux : List Char → List Char → List (List Char)
  | acc, [] => if acc.isEmpty then [] else [dropCR acc]
  | acc, c :: rest =>
    if c = '\n' then dropCR acc :: scanLinesAux [] rest
    else scanLinesAux (acc ++ [c]) rest

/-- All tokens bufio.Scanner yields for the given bytes. -/
def scanLines (l : List Char) : List (List Char) := scanLinesAux [] l

/-- The accumulating buffer: buf is the unconsumed bytes of the
bytes.Buffer, lines the cached line list. -/
structure OutputBuffer where
  buf : List Char
  lines : List (List Char)
  deriving DecidableEq, Repr

/-- NewOutputBuffer: empty buffer, empty line cache. -/
def newOutputBuffer : OutputBuffer := ⟨[], []⟩

/-- OutputBuffer.Write: append bytes under the lock. -/
def OutputBuffer.write (rw : OutputBuffer) (p : List Char) : OutputBuffer :=
  ⟨rw.buf ++ p, rw.lines⟩

/-- OutputBuffer.Lines: scan the buffer with bufio.Scanner (which consumes
the bytes.Buffer it reads from), append the tokens to the cache, and
return the cache. -/
def OutputBuffer.linesOp (rw : OutputBuffer) : OutputBuffer × List (List Char) :=
  (⟨[], rw.lines ++ scanLines rw.buf⟩, rw.lines ++ scanLines rw.buf)

/-- Fold a sequence of writes into the buffer. -/
def OutputBuffer.writeAll (rw : OutputBuffer) (ps : List (List Char)) : OutputBuffer :=
  ps.foldl OutputBuffer.write rw

/-- The forwarding loop of CommandWithChan over the lines one stream
produces: a non-blocking send (select with a default case) pushes the line
if the queue, of capacity cap, has room, and otherwise drops it.  q is the
queue contents, with no consumer running. -/
def forwardLines (cap : Nat) (q : List (List Char)) : List (List Char) → List (List Char)
  | [] => q
  | l :: ls => forwardLines cap (if q.length < cap then q ++ [l] else q) ls

/-- CommandWithChan, after the process wrote the given lines and exited
with no consumer draining the queue: the final queue contents and whether
the queue was closed (runner.Wait() then close(queue)). -/
def commandWithChan (cap : Nat) (linesOut : List (List Char)) :
    List (List Char) × Bool :=
  (forwardLines cap [] linesOut, true)

/-- context.Context error: Canceled or DeadlineExceeded. -/
inductive CtxErr where
  | canceled
  | deadlineExceeded
  deriving DecidableEq, Repr

/-- The state of one Cmd handle together with its OS process and the two
completion channels.  Status fields come first (pid, finish, exitCode,
error, costTime and the three output snapshots, plus startTime).  The
channel fields model doneChan and statusChan: closing an already-closed
channel, or sending on a closed channel, sets panicked (a Go runtime
panic).  processSpawned models stdcmd.Process != nil; procPid and
procExitCode are what the OS reports (ProcessState.ExitCode() is -1
before the process has been waited for).  spawnCount counts the OS
processes ever spawned from this handle. -/
structure CmdState where
  pid : Nat
  finish : Bool
  exitCode : Int
  error : Option GoError
  costTime : Nat
  outputS : List Char
  stdoutS : List Char
  stderrS : List Char
  startTime : Nat
  isFinalized : Bool
  doneClosed : Bool
  statusClosed : Bool
  statusSent : Bool
  panicked : Bool
  ctxErr : Option CtxErr
  ctxArmed : Bool
  timeout : Nat
  processSpawned : Bool
  processAlive : Bool
  procPid : Nat
  procExitCode : Int
  spawnCount : Nat
  output : List Char
  stdout : List Char
  stderr : List Char
  deriving DecidableEq, Repr

/-- NewCommand: zero-valued handle with fresh (open) channels. -/
def newCommand (timeout : Nat) : CmdState :=
  { pid := 0, finish := false, exitCode := 0, error := none, costTime := 0
    outputS := [], stdoutS := [], stderrS := [], startTime := 0
    isFinalized := false, doneClosed := false, statusClosed := false
    statusSent := false, panicked := false, ctxErr := none, ctxArmed := false
    timeout := timeout, processSpawned := false, processAlive := false
    procPid := 0, procExitCode := -1, spawnCount := 0
    output := [], stdout := [], stderr := [] }

/-- The caller-visible Status record of a handle. -/
structure StatusView where
  pid : Nat
  finish : Bool
  exitCode : Int
  error : Option GoError
  costTime : Nat
  outputS : List Char
  stdoutS : List Char
  stderrS : List Char
  deriving DecidableEq, Repr

/-- Project the Status fields out of the handle state. -/
def status (s : CmdState) : StatusView :=
  ⟨s.pid, s.finish, s.exitCode, s.error, s.costTime, s.outputS, s.stdoutS, s.stderrS⟩

/-- Cmd.finalize: under the mutex, return at once if already finalized;
otherwise freeze cost time, finish flag, pid and exit code, close both
completion channels (a second close would panic) and set the flag. -/
def finalize (s : CmdState) (now : Nat) : CmdState :=
  if s.isFinalized then s
  else
    { s with
      costTime := now - s.startTime
      finish := true
      pid := s.procPid
      exitCode := s.procExitCode
      panicked := s.panicked || s.doneClosed || s.statusClosed
      doneClosed := true
      statusClosed := true
      isFinalized := true }

/-- context cancel(): sets the context error to Canceled unless the
context is already done. -/
def cancel (s : CmdState) : CmdState :=
  if s.ctxErr = none then { s with ctxErr := some .canceled } else s

/-- Cmd.Stop: no-op when no process was ever attached; otherwise cancel
the context, finalize, and kill the process and its process group. -/
def stop (s : CmdState) (now : Nat) : CmdState :=
  if s.processSpawned = false then s
  else { finalize (cancel s) now with processAlive := false }

/-- The body of Cmd.handleWait after stdcmd.Wait() has returned: the
process is gone and its exit code is available; on a timed-out or
cancelled context return at once; on a wait error record the classified
error; on clean exit copy the three capture buffers into Status. -/
def handleWaitBody (s : CmdState) (waitErr : Option GoError) (ec : Int) : CmdState :=
  let s := { s with processAlive := false, procExitCode := ec }
  if s.ctxErr = some .deadlineExceeded then s
  else if s.ctxErr = some .canceled then s
  else if waitErr.isSome then { s with error := formatExitCode waitErr }
  else { s with stdoutS := s.stdout, stderrS := s.stderr, outputS := s.output }

/-- The send c.statusChan <- c.Status: statusChan has capacity one and is
never sent to twice, so the send panics exactly when the channel is
already closed. -/
def sendStatus (s : CmdState) : CmdState :=
  if s.statusClosed then { s with panicked := true }
  else { s with statusSent := true }

/-- The deferred tail of Cmd.handleWait: when the status is already
finished, return; otherwise publish Status on statusChan and finalize. -/
def handleWaitDefer (s : CmdState) (now : Nat) : CmdState :=
  if s.finish then s else finalize (sendStatus s) now

/-- Cmd.handleWait: body then deferred finalization, for a process whose
wait returned waitErr with OS exit code ec at time now. -/
def handleWait (s : CmdState) (waitErr : Option GoError) (ec : Int) (now : Nat) : CmdState :=
  handleWaitDefer (handleWaitBody s waitErr ec) now

/-- The context deadline elapsing: only a timeout-armed context whose
error is not yet set becomes DeadlineExceeded. -/
def deadlineExpire (s : CmdState) : CmdState :=
  if s.ctxArmed ∧ s.ctxErr = none then { s with ctxErr := some .deadlineExceeded }
  else s

/-- The timer callback armed by Cmd.handleTimeout, firing at the deadline:
a select between <-doneChan (ready when doneChan is closed) and
<-ctx.Done() (ready when the context error is set).  When both are ready
Go picks a branch nondeterministically; pickDone records that choice.
The done branch returns at once; the ctx branch classifies the error as
cancel or timeout and calls Stop. -/
def timerCall (s : CmdState) (pickDone : Bool) (now : Nat) : CmdState :=
  if s.doneClosed ∧ (s.ctxErr = none ∨ pickDone) then s
  else
    match s.ctxErr with
    | some .canceled => stop { s with error := some .processCancel } now
    | some .deadlineExceeded => stop { s with error := some .processTimeout } now
    | none => s

/-- Cmd.run: build a fresh context (armed when a timeout is set), stamp
the start time, and spawn.  spawnRes none models a successful
cmd.Start(): the OS process (pid) is attached and handleWait is launched.
spawnRes some e models a spawn failure: the error is recorded in Status
and returned, and nothing else happens. -/
def run (s : CmdState) (spawnRes : Option GoError) (pid : Nat) (now : Nat) :
    CmdState × Option GoError :=
  let s0 := { s with ctxErr := none, ctxArmed := decide (0 < s.timeout), startTime := now }
  match spawnRes with
  | some e => ({ s0 with error := some e }, some e)
  | none =>
    ({ s0 with
        processSpawned := true
        processAlive := true
        procPid := pid
        spawnCount := s0.spawnCount + 1 }, none)

/-- Cmd.Start: fail with ErrAlreadyFinished when Status.Finish is set;
otherwise run. -/
def start (s : CmdState) (spawnRes : Option GoError) (pid : Nat) (now : Nat) :
    CmdState × Option GoError :=
  if s.finish then (s, some .alreadyFinished)
  else run s spawnRes pid now

/-- Cmd.Wait parks on <-c.doneChan; doneChan is never sent to, only
closed by finalize, so Wait returns exactly when doneChan is closed. -/
def waitReturns (s : CmdState) : Bool := s.doneClosed

/-- A handle with timeout 5 whose process (pid 42) was started at time 0
and is still running. -/
def runningState : CmdState := (start (newCommand 5) none 42 0).1

/-- A handle that ran to natural completion (clean exit at time 2). -/
def finishedState : CmdState := handleWait runningState none 0 2

/-- The wait error for a force-killed process. -/
def killedErr : GoError := .exitError "signal: killed".toList

/-- The result of Start on a fresh handle whose spawn fails. -/
def spawnFail : CmdState × Option GoError :=
  start (newCommand 0) (some (.spawnError "no such file or directory".toList)) 0 0

/-- The running handle after its process wrote the bytes oops to stdout. -/
def ranWithOutput : CmdState :=
  { runningState with output := "oops".toList, stdout := "oops".toList }

end Shell

set_option maxRecDepth 4096 in
/-- C8: exit status 127 maps to the command-not-found error, 126 to the
not-executable error, 128 to the invalid-arguments error, and every other
exit status (in the OS range 0..255) passes through as the raw exit error,
not swallowed to nil. -/
theorem Shell.formatExitCode_mapping (n : Nat) (h : n ≤ 255) :
    Shell.formatExitCode (some (.exitError (Shell.exitStatusMsg 127))) =
      some .notFoundCommand ∧
    Shell.formatExitCode (some (.exitError (Shell.exitStatusMsg 126))) =
      some .notExecutePermission ∧
    Shell.formatExitCode (some (.exitError (Shell.exitStatusMsg 128))) =
      some .invalidArgs ∧
    (n ≠ 127 → n ≠ 126 → n ≠ 128 →
      Shell.formatExitCode (some (.exitError (Shell.exitStatusMsg n))) =
        some (.exitError (Shell.exitStatusMsg n))) := by
  revert h
  revert n
  decide

/-- Witness for C8 at exit status 1: the hypothesis 1 ≤ 255 holds and the
raw error passes through. -/
theorem Shell.formatExitCode_mapping_witness :
    (1 ≤ 255) ∧
    Shell.formatExitCode (some (.exitError (Shell.exitStatusMsg 1))) =
      some (.exitError (Shell.exitStatusMsg 1)) :=
  ⟨by decide, (Shell.formatExitCode_mapping 1 (by decide)).2.2.2
    (by decide) (by decide) (by decide)⟩

/-! Helper lemmas about the scanning loop, the accumulating buffer and the
forwarding loop. -/

namespace Shell

/-- indexOfNl finds an in-range position holding a newline. -/
theorem indexOfNl_spec (l : List Char) (i : Nat) (h : indexOfNl l = some i) :
    i < l.length ∧ l.getD i ' ' = '\n' := by
  induction l generalizing i with
  | nil => simp [indexOfNl] at h
  | cons c cs ih =>
    by_cases hc : c = '\n'
    · simp [indexOfNl, hc] at h
      subst h
      simp [hc]
    · simp [indexOfNl, hc] at h
      obtain ⟨j, hj, rfl⟩ := h
      obtain ⟨h1, h2⟩ := ih j hj
      refine ⟨by simpa using h1, by simpa using h2⟩

/-- getD after drop reads the shifted position. -/
theorem getD_drop (l : List Char) (m i : Nat) (d : Char) :
    (l.drop m).getD i d = l.getD (m + i) d := by
  simp [List.getD_eq_getElem?_getD, List.getElem?_drop]

/-- The scanning loop, given enough fuel, stops at a position past all
newlines, lands just after a newline (or never moved), and leaves as
carry-over either the original carry (nothing emitted) or nothing. -/
theorem writeLoopF_spec (fuel : Nat) (p : List Char) (fc₀ : Nat) (carry : List Char)
    (h0 : fc₀ ≤ p.length) (hfuel : p.length - fc₀ < fuel) :
    fc₀ ≤ (writeLoopF fuel p fc₀ carry).2.1 ∧
    (writeLoopF fuel p fc₀ carry).2.1 ≤ p.length ∧
    indexOfNl (p.drop (writeLoopF fuel p fc₀ carry).2.1) = none ∧
    ((writeLoopF fuel p fc₀ carry).2.1 = fc₀ ∨
      p.getD ((writeLoopF fuel p fc₀ carry).2.1 - 1) ' ' = '\n') ∧
    ((writeLoopF fuel p fc₀ carry).2.2 = carry ∨ (writeLoopF fuel p fc₀ carry).2.2 = []) := by
  induction fuel generalizing fc₀ carry with
  | zero => omega
  | succ fuel ih =>
    rcases hnl : indexOfNl (p.drop fc₀) with _ | i
    · simp only [writeLoopF, hnl]
      simp [hnl]
      exact h0
    · obtain ⟨hi, hch⟩ := indexOfNl_spec _ _ hnl
      rw [List.length_drop] at hi
      have hch' : p.getD (fc₀ + i) ' ' = '\n' := by
        rw [← getD_drop]; exact hch
      have h0' : fc₀ + i + 1 ≤ p.length := by omega
      have hfuel' : p.length - (fc₀ + i + 1) < fuel := by omega
      obtain ⟨a1, a2, a3, a4, a5⟩ := ih (fc₀ + i + 1) [] h0' hfuel'
      refine ⟨?_, ?_, ?_, ?_, ?_⟩ <;>
        simp only [writeLoopF, hnl]
      · omega
      · exact a2
      · exact a3
      · right
        rcases a4 with a4 | a4
        · rw [a4]; simpa using hch'
        · exact a4
      · right
        rcases a5 with a5 | a5
        · exact a5
        · exact a5

/-- Folding writes appends all the written byte runs to the buffer. -/
theorem writeAll_spec (ps : List (List Char)) (b : List Char) (L : List (List Char)) :
    OutputBuffer.writeAll ⟨b, L⟩ ps = ⟨b ++ ps.flatten, L⟩ := by
  induction ps generalizing b with
  | nil => simp [OutputBuffer.writeAll]
  | cons q qs ih =>
    simp only [OutputBuffer.writeAll, List.foldl_cons, OutputBuffer.write] at *
    rw [ih (b ++ q)]
    simp

/-- The forwarding loop with no consumer keeps the first lines that fit. -/
theorem forwardLines_spec (cap : Nat) (ls : List (List Char)) (q : List (List Char))
    (h : q.length ≤ cap) :
    forwardLines cap q ls = q ++ ls.take (cap - q.length) := by
  induction ls generalizing q with
  | nil => simp [forwardLines]
  | cons l ls ih =>
    by_cases hq : q.length < cap
    · rw [forwardLines, if_pos hq, ih (q ++ [l]) (by simp; omega)]
      have hk : cap - q.length = (cap - (q ++ [l]).length) + 1 := by simp; omega
      rw [hk]
      simp [List.take_succ_cons, List.append_assoc]
    · have h0 : cap - q.length = 0 := by omega
      rw [forwardLines, if_neg hq, ih q h, h0]
      simp [h0]

end Shell

/-! The claims. -/

/-- C1: finalization is exactly-once and idempotent: on a spawned handle in
its pre-finalize state, a second Stop leaves the state of the first Stop
untouched (in particular no Status field changes and no channel is closed
twice), Stop never turns the panic flag on, natural completion via
handleWait does not panic, and a Stop arriving after natural completion
preserves the Status frozen by the first finalize and does not panic. -/
theorem Shell.finalize_exactly_once (s : Shell.CmdState) (we : Option Shell.GoError)
    (ec : Int) (t₁ t₂ : Nat)
    (hb : s.isFinalized = false) (hf : s.finish = false)
    (hd : s.doneClosed = false) (hs : s.statusClosed = false)
    (hsp : s.processSpawned = true) :
    Shell.stop (Shell.stop s t₁) t₂ = Shell.stop s t₁ ∧
    (s.panicked = false → (Shell.stop (Shell.stop s t₁) t₂).panicked = false) ∧
    Shell.status (Shell.stop (Shell.handleWait s we ec t₁) t₂) =
      Shell.status (Shell.handleWait s we ec t₁) ∧
    (Shell.handleWait s we ec t₁).panicked = s.panicked ∧
    (Shell.stop (Shell.handleWait s we ec t₁) t₂).panicked =
      (Shell.handleWait s we ec t₁).panicked := by
  rcases hce : s.ctxErr with _ | ce
  all_goals try rcases ce
  all_goals rcases we with _ | e
  all_goals refine ⟨?_, ?_, ?_, ?_, ?_⟩
  all_goals simp [Shell.stop, Shell.cancel, Shell.finalize, Shell.handleWait,
    Shell.handleWaitBody, Shell.handleWaitDefer, Shell.sendStatus, Shell.status,
    hb, hf, hd, hs, hsp, hce]

/-- Witness for C1 at the concrete running handle: the hypotheses hold and
a second Stop is the identity on the stopped state. -/
theorem Shell.finalize_exactly_once_witness :
    Shell.runningState.isFinalized = false ∧
    Shell.runningState.processSpawned = true ∧
    Shell.stop (Shell.stop Shell.runningState 1) 2 = Shell.stop Shell.runningState 1 :=
  ⟨by decide, by decide,
    (Shell.finalize_exactly_once Shell.runningState none 0 1 2 (by decide) (by decide)
      (by decide) (by decide) (by decide)).1⟩

/-- C2 counterexample: an explicit Stop wins the race on a timeout-armed
running handle; when the timer callback later fires and its select takes
the closed-done-channel branch, Status.Error is still nil after the killed
process is reaped — not ErrProcessCancel, so the claim fails as stated. -/
theorem Shell.stop_race_error_counterexample :
    (Shell.handleWait
        (Shell.timerCall (Shell.deadlineExpire (Shell.stop Shell.runningState 1)) true 5)
        (some Shell.killedErr) (-1) 5).error ≠ some Shell.GoError.processCancel := by
  decide

/-- C2 (amended): on a timeout-armed running handle, if the deadline
elapses first the timer callback classifies Status.Error as
ErrProcessTimeout and it survives the process reap; if an explicit Stop
wins first, Status.Error is still nil at finalize, and it becomes
ErrProcessCancel only when the timer callback later takes the
cancelled-context branch of its select — taking the done-channel branch
leaves it nil. -/
theorem Shell.stop_timeout_race_classification (s : Shell.CmdState)
    (we : Option Shell.GoError) (ec : Int) (t₁ t₂ t₃ : Nat)
    (hb : s.isFinalized = false) (hf : s.finish = false)
    (hd : s.doneClosed = false) (hs : s.statusClosed = false)
    (hsp : s.processSpawned = true) (hc : s.ctxErr = none) (ha : s.ctxArmed = true)
    (he : s.error = none) :
    (Shell.handleWait (Shell.timerCall (Shell.deadlineExpire s) false t₁) we ec t₂).error =
      some .processTimeout ∧
    (Shell.stop s t₁).error = none ∧
    (Shell.handleWait (Shell.timerCall (Shell.deadlineExpire (Shell.stop s t₁)) false t₂)
        we ec t₃).error = some .processCancel ∧
    (Shell.handleWait (Shell.timerCall (Shell.deadlineExpire (Shell.stop s t₁)) true t₂)
        we ec t₃).error = none := by
  refine ⟨?_, ?_, ?_, ?_⟩
  all_goals simp [Shell.stop, Shell.cancel, Shell.finalize, Shell.handleWait,
    Shell.handleWaitBody, Shell.handleWaitDefer, Shell.sendStatus, Shell.timerCall,
    Shell.deadlineExpire, hb, hf, hd, hs, hsp, hc, ha, he]

/-- Witness for C2 at the concrete running handle: the deadline-first
trace ends with ErrProcessTimeout and the stop-then-ctx-branch trace ends
with ErrProcessCancel. -/
theorem Shell.stop_timeout_race_classification_witness :
    Shell.runningState.ctxArmed = true ∧
    (Shell.handleWait (Shell.timerCall (Shell.deadlineExpire Shell.runningState) false 5)
        (some Shell.killedErr) (-1) 6).error = some Shell.GoError.processTimeout ∧
    (Shell.handleWait
        (Shell.timerCall (Shell.deadlineExpire (Shell.stop Shell.runningState 1)) false 5)
        (some Shell.killedErr) (-1) 6).error = some Shell.GoError.processCancel :=
  ⟨by decide,
    (Shell.stop_timeout_race_classification Shell.runningState (some Shell.killedErr) (-1) 5 6 6
      (by decide) (by decide) (by decide) (by decide) (by decide) (by decide) (by decide)
      (by decide)).1,
    (Shell.stop_timeout_race_classification Shell.runningState (some Shell.killedErr) (-1) 1 5 6
      (by decide) (by decide) (by decide) (by decide) (by decide) (by decide) (by decide)
      (by decide)).2.2.1⟩

/-- C3 counterexample: Start on a handle whose first process is still
running does not fail with the already-finished error and spawns a second
OS process from the same handle (the guard only checks Status.Finish). -/
theorem Shell.start_while_running_counterexample :
    Shell.runningState.processAlive = true ∧
    Shell.runningState.spawnCount = 1 ∧
    (Shell.start Shell.runningState none 43 1).2 ≠ some Shell.GoError.alreadyFinished ∧
    (Shell.start Shell.runningState none 43 1).1.spawnCount = 2 := by
  decide

/-- C3 (amended): Start on an already-finished handle fails with the
already-finished error and spawns nothing, but Start while the first
process is still running (Status.Finish still false) spawns a second
process and reports no error. -/
theorem Shell.start_finished_guard (s : Shell.CmdState) (sr : Option Shell.GoError)
    (pid now : Nat) :
    (s.finish = true → Shell.start s sr pid now = (s, some .alreadyFinished)) ∧
    (s.finish = false → sr = none →
      (Shell.start s sr pid now).2 = none ∧
      (Shell.start s sr pid now).1.spawnCount = s.spawnCount + 1) := by
  constructor
  · intro h
    unfold Shell.start
    simp [h]
  · intro h hsr
    subst hsr
    unfold Shell.start Shell.run
    simp [h]

/-- Witness for C3: the guard fires on the finished handle, and a second
spawn happens on the running handle. -/
theorem Shell.start_finished_guard_witness :
    Shell.start Shell.finishedState none 7 9 = (Shell.finishedState, some .alreadyFinished) ∧
    (Shell.start Shell.runningState none 43 1).2 = none ∧
    (Shell.start Shell.runningState none 43 1).1.spawnCount = Shell.runningState.spawnCount + 1 :=
  ⟨(Shell.start_finished_guard Shell.finishedState none 7 9).1 (by decide),
    ((Shell.start_finished_guard Shell.runningState none 43 1).2 (by decide) rfl).1,
    ((Shell.start_finished_guard Shell.runningState none 43 1).2 (by decide) rfl).2⟩

/-- C4 counterexample: a failed spawn returns its error synchronously and
records it in Status.Error, but the handle does not transition to
finalized — Status.Finish and the finalize flag stay false, the done
channel stays open, and Wait (which parks on the done channel) never
returns. -/
theorem Shell.spawn_failure_counterexample :
    Shell.spawnFail.2 = some (.spawnError "no such file or directory".toList) ∧
    Shell.spawnFail.1.error = some (.spawnError "no such file or directory".toList) ∧
    Shell.spawnFail.1.finish = false ∧
    Shell.spawnFail.1.isFinalized = false ∧
    Shell.waitReturns Shell.spawnFail.1 = false := by
  decide

/-- C4 (amended): for every handle not yet finished, a spawn failure is
returned synchronously from Start and recorded into Status.Error, but the
handle is not finalized: Status.Finish stays false, the finalize flag
stays false, and a subsequent Wait does not return (the done channel is
never closed on this path). -/
theorem Shell.spawn_failure_records_error_no_finalize (s : Shell.CmdState)
    (e : Shell.GoError) (pid now : Nat)
    (hf : s.finish = false) (hd : s.doneClosed = false) (hb : s.isFinalized = false) :
    (Shell.start s (some e) pid now).2 = some e ∧
    (Shell.start s (some e) pid now).1.error = some e ∧
    (Shell.start s (some e) pid now).1.finish = false ∧
    (Shell.start s (some e) pid now).1.isFinalized = false ∧
    Shell.waitReturns (Shell.start s (some e) pid now).1 = false := by
  unfold Shell.start Shell.run Shell.waitReturns
  simp [hf, hd, hb]

/-- Witness for C4 on a fresh handle. -/
theorem Shell.spawn_failure_records_error_no_finalize_witness :
    (Shell.newCommand 0).finish = false ∧
    Shell.waitReturns (Shell.start (Shell.newCommand 0)
      (some (Shell.GoError.spawnError "no such file or directory".toList)) 0 0).1 = false :=
  ⟨rfl, (Shell.spawn_failure_records_error_no_finalize (Shell.newCommand 0)
      (Shell.GoError.spawnError "no such file or directory".toList) 0 0
      rfl rfl rfl).2.2.2.2⟩

/-- C5 counterexample: a process that wrote the bytes oops and exited
non-zero finalizes with the classified error, yet Status.Output and
Status.Stdout are empty — the captured output is not preserved in Status
on the failure path. -/
theorem Shell.failed_status_output_counterexample :
    Shell.ranWithOutput.output = "oops".toList ∧
    (Shell.handleWait Shell.ranWithOutput
        (some (.exitError (Shell.exitStatusMsg 1))) 1 3).finish = true ∧
    (Shell.handleWait Shell.ranWithOutput
        (some (.exitError (Shell.exitStatusMsg 1))) 1 3).error =
      some (.exitError (Shell.exitStatusMsg 1)) ∧
    (Shell.handleWait Shell.ranWithOutput
        (some (.exitError (Shell.exitStatusMsg 1))) 1 3).outputS = [] ∧
    (Shell.handleWait Shell.ranWithOutput
        (some (.exitError (Shell.exitStatusMsg 1))) 1 3).stdoutS = [] := by
  decide

/-- C5 (amended): handleWait copies the capture buffers into
Status.Output, Status.Stdout and Status.Stderr only on the clean-exit
path; on the non-zero-exit path the classified error is recorded and the
Status output fields keep their empty zero values, and on the
timeout/cancel paths even the error field is left as it was — in each
case the handle still finalizes (Finish becomes true). -/
theorem Shell.status_output_only_on_clean_exit (s : Shell.CmdState)
    (we : Option Shell.GoError) (ec : Int) (t : Nat)
    (hf : s.finish = false) (hb : s.isFinalized = false)
    (hd : s.doneClosed = false) (hsc : s.statusClosed = false)
    (ho : s.outputS = []) (hso : s.stdoutS = []) (hse : s.stderrS = []) :
    (s.ctxErr = none → we = none →
      (Shell.handleWait s we ec t).outputS = s.output ∧
      (Shell.handleWait s we ec t).stdoutS = s.stdout ∧
      (Shell.handleWait s we ec t).stderrS = s.stderr ∧
      (Shell.handleWait s we ec t).finish = true) ∧
    (s.ctxErr = none → we.isSome = true →
      (Shell.handleWait s we ec t).outputS = [] ∧
      (Shell.handleWait s we ec t).stdoutS = [] ∧
      (Shell.handleWait s we ec t).stderrS = [] ∧
      (Shell.handleWait s we ec t).error = Shell.formatExitCode we ∧
      (Shell.handleWait s we ec t).finish = true) ∧
    (∀ ce, s.ctxErr = some ce →
      (Shell.handleWait s we ec t).outputS = [] ∧
      (Shell.handleWait s we ec t).stdoutS = [] ∧
      (Shell.handleWait s we ec t).stderrS = [] ∧
      (Shell.handleWait s we ec t).error = s.error ∧
      (Shell.handleWait s we ec t).finish = true) := by
  refine ⟨?_, ?_, ?_⟩
  · intro hc hwe
    subst hwe
    simp [Shell.handleWait, Shell.handleWaitBody, Shell.handleWaitDefer, Shell.sendStatus,
      Shell.finalize, hf, hb, hc, hd, hsc]
  · intro hc hwe
    rcases we with _ | e
    · simp at hwe
    · simp [Shell.handleWait, Shell.handleWaitBody, Shell.handleWaitDefer, Shell.sendStatus,
        Shell.finalize, hf, hb, hc, hd, hsc, ho, hso, hse]
  · intro ce hc
    rcases ce
    all_goals simp [Shell.handleWait, Shell.handleWaitBody, Shell.handleWaitDefer,
      Shell.sendStatus, Shell.finalize, hf, hb, hc, hd, hsc, ho, hso, hse]

/-- Witness for C5: on the concrete handle the clean path copies the
captured bytes and the failure path leaves Status.Output empty. -/
theorem Shell.status_output_only_on_clean_exit_witness :
    Shell.ranWithOutput.finish = false ∧
    (Shell.handleWait Shell.ranWithOutput none 0 3).outputS = Shell.ranWithOutput.output ∧
    (Shell.handleWait Shell.ranWithOutput (some Shell.killedErr) 1 3).outputS = [] :=
  ⟨by decide,
    ((Shell.status_output_only_on_clean_exit Shell.ranWithOutput none 0 3 (by decide)
        (by decide) (by decide) (by decide) (by decide) (by decide) (by decide)).1
      (by decide) rfl).1,
    ((Shell.status_output_only_on_clean_exit Shell.ranWithOutput (some Shell.killedErr) 1 3
        (by decide) (by decide) (by decide) (by decide) (by decide) (by decide) (by decide)).2.1
      (by decide) rfl).1⟩

/-- C6: line framing of OutputStream.Write.  The two examples of the claim
hold — one write of two terminated lines emits them in order, and a
carried-over partial line is prepended to the next write's completion —
and a lone line with a carriage return is stripped; but on the failing
input of two lines in one write where the second ends in a carriage
return, the code checks the byte at the segment-relative newline offset
against the whole input (p at newlineOffset-1 instead of the byte before
the newline), so the carriage return of the second line is NOT stripped
and the emitted line keeps its trailing CR. -/
theorem Shell.outputStream_write_framing :
    (Shell.newOutputStream.write "abc\ndef\n".toList).lines =
      ["abc".toList, "def".toList] ∧
    ((Shell.newOutputStream.write "ab".toList).stream.write "c\n".toList).lines =
      ["abc".toList] ∧
    (Shell.newOutputStream.write "cd\r\n".toList).lines = ["cd".toList] ∧
    (Shell.newOutputStream.write "ab\ncd\r\n".toList).lines =
      ["ab".toList, ['c', 'd', '\r']] := by
  decide

/-- C7: when the trailing partial line does not fit in the remaining
carry-over capacity, Write returns ErrLineBufferOverflow with n the
number of input bytes consumed before the failure — n points past the
last processed newline (or is 0), no newline remains beyond n, and the
leftover plus the carry-over indeed exceeds the capacity — and after any
Write the carry-over length never exceeds the configured capacity; a
Write returning no error consumed the whole input. -/
theorem Shell.outputStream_write_overflow (bufSize : Nat) (carry p : List Char)
    (h : carry.length ≤ bufSize) :
    ((Shell.OutputStream.write ⟨bufSize, carry⟩ p).stream.carry.length ≤ bufSize) ∧
    ((Shell.OutputStream.write ⟨bufSize, carry⟩ p).err = some .lineBufferOverflow →
      (Shell.OutputStream.write ⟨bufSize, carry⟩ p).n ≤ p.length ∧
      Shell.indexOfNl (p.drop (Shell.OutputStream.write ⟨bufSize, carry⟩ p).n) = none ∧
      ((Shell.OutputStream.write ⟨bufSize, carry⟩ p).n = 0 ∨
        p.getD ((Shell.OutputStream.write ⟨bufSize, carry⟩ p).n - 1) ' ' = '\n') ∧
      bufSize < (Shell.OutputStream.write ⟨bufSize, carry⟩ p).stream.carry.length +
        (p.length - (Shell.OutputStream.write ⟨bufSize, carry⟩ p).n)) ∧
    ((Shell.OutputStream.write ⟨bufSize, carry⟩ p).err = none →
      (Shell.OutputStream.write ⟨bufSize, carry⟩ p).n = p.length) := by
  obtain ⟨a1, a2, a3, a4, a5⟩ :=
    Shell.writeLoopF_spec (p.length + 1) p 0 carry (Nat.zero_le _) (by omega)
  have hcl : (Shell.writeLoopF (p.length + 1) p 0 carry).2.2.length ≤ bufSize := by
    rcases a5 with a5 | a5 <;> rw [a5]
    · exact h
    · exact Nat.zero_le _
  unfold Shell.OutputStream.write Shell.writeLoop
  dsimp only
  split_ifs with h1 h2 <;> dsimp only
  · refine ⟨hcl, ?_, ?_⟩
    · intro _
      exact ⟨a2, a3, a4, by omega⟩
    · intro hc
      simp at hc
  · refine ⟨?_, ?_, ?_⟩
    · simp only [List.length_append, List.length_drop]
      omega
    · intro hc
      simp at hc
    · intro _
      rfl
  · refine ⟨hcl, ?_, ?_⟩
    · intro hc
      simp at hc
    · intro _
      rfl

/-- Witness for C7: a two-byte capacity with one carried byte, fed a
completed line and a four-byte partial line, overflows after consuming
three bytes and keeps the carry-over within capacity. -/
theorem Shell.outputStream_write_overflow_witness :
    "x".toList.length ≤ 2 ∧
    ((Shell.OutputStream.write ⟨2, "x".toList⟩ "ab\ncdef".toList).stream.carry.length ≤ 2) ∧
    (Shell.OutputStream.write ⟨2, "x".toList⟩ "ab\ncdef".toList).err =
      some Shell.GoError.lineBufferOverflow ∧
    (Shell.OutputStream.write ⟨2, "x".toList⟩ "ab\ncdef".toList).n = 3 :=
  ⟨by decide,
    (Shell.outputStream_write_overflow 2 "x".toList "ab\ncdef".toList (by decide)).1,
    by decide, by decide⟩

/-- C9: the accumulating buffer's line cache is append-only with no
silent duplication: calling Lines again on the unchanged buffer returns
the same cache and state (the scanner consumed the buffered bytes), and
after any further writes a later Lines call returns exactly the earlier
result extended by the lines of the newly written bytes — no earlier line
is ever returned a second time as a duplicate entry. -/
theorem Shell.outputBuffer_lines_append_only (rw : Shell.OutputBuffer)
    (ps : List (List Char)) :
    rw.linesOp.1.linesOp = (rw.linesOp.1, rw.linesOp.2) ∧
    (rw.linesOp.1.writeAll ps).linesOp.2 = rw.linesOp.2 ++ Shell.scanLines ps.flatten := by
  constructor
  · simp [Shell.OutputBuffer.linesOp, Shell.scanLines, Shell.scanLinesAux]
  · simp only [Shell.OutputBuffer.linesOp]
    rw [Shell.writeAll_spec]
    simp [Shell.scanLines, Shell.scanLinesAux]

/-- C10 counterexample: with a queue of capacity one and no consumer, a
process that writes the lines a and b exits with only a in the queue —
the non-blocking send dropped b, though the queue is closed on exit. -/
theorem Shell.commandWithChan_drop_counterexample :
    (Shell.commandWithChan 1 ["a".toList, "b".toList]).2 = true ∧
    ¬ ("b".toList ∈ (Shell.commandWithChan 1 ["a".toList, "b".toList]).1) := by
  decide

/-- C10 (amended): CommandWithChan closes the queue when the process
exits, but forwards a line only when the queue has room at that moment:
with an unconsumed queue of capacity cap, exactly the first cap lines are
delivered and every later line is silently dropped by the non-blocking
send's default branch. -/
theorem Shell.commandWithChan_queue_capacity (cap : Nat) (ls : List (List Char)) :
    Shell.commandWithChan cap ls = (ls.take cap, true) := by
  unfold Shell.commandWithChan
  rw [Shell.forwardLines_spec cap ls [] (Nat.zero_le _)]
  simp
